import Mathlib

/-!
Verification of the card-layout subsystem (CardLayout.ts) and the pace-label
updater of the hanabi-live client.  The layout engine is embedded shallowly:
the Konva scene graph is reduced to the per-child geometric state that
doLayout reads and writes, the tween driver is reduced to a list of
scheduled tweens with explicit completion behavior, and the global flags
(animateFast, keldonMode, speedrun) are passed explicitly.  Numeric fields
use exact rationals; the rotation-aware center helper uses real numbers
because it calls trigonometric functions.
-/

/-- A 2-D point, as used for absolute positions. -/
structure Pos where
  x : ℚ
  y : ℚ
deriving DecidableEq, Repr

/-- The easing functions used by doLayout (only EaseOut is ever passed). -/
inductive Easing
  | easeOut
deriving DecidableEq, Repr

/-- The standard card animation duration, CARD_ANIMATION_LENGTH.
Modelled from the spec: the constant comes from constants.ts, which is not
among the sources; no claim depends on its numeric value. -/
def CARD_ANIMATION_LENGTH : ℚ := 1 / 2

/-- The default label color, LABEL_COLOR.
Modelled from the spec: the constant comes from constants.ts, which is not
among the sources; the claims only need that it is the default tier fill,
distinct from the fixed per-risk colors. -/
def LABEL_COLOR : String := "#d8d5ef"

/-- The parameter record passed to the tween driver by doLayout:
duration, target x, y, scale, rotation, opacity, easing, and the flag
(the negation of the speedrun option) that allows the tween to run at
normal speed rather than resolving instantly. -/
structure TweenSpec where
  duration : ℚ
  x : ℚ
  y : ℚ
  scale : ℚ
  rotation : ℚ
  opacity : ℚ
  easing : Easing
  allowFast : Bool
deriving DecidableEq, Repr

/-- The completion behavior of a scheduled tween. layoutDone is the
onFinish of the plain layout tween (notify finishedTweening, then
checkSetDraggable).  misplayDone carries the second-phase layout tween
that the misplay onFinish chains into after snapping rotation to 360. -/
inductive OnFinish
  | layoutDone
  | misplayDone (second : TweenSpec)
deriving DecidableEq, Repr

/-- A tween that has been created and is currently in flight: its handle
id, the index of the child it animates, its parameters, and its completion
behavior. -/
structure LiveTween where
  id : Nat
  childIdx : Nat
  spec : TweenSpec
  onFinish : OnFinish
deriving DecidableEq, Repr

/-- The notifications doLayout (and tween completion) sends to a child or
its card visual, tagged by the child index within the pass. -/
inductive Event
  | startedTweening (i : Nat)
  | finishedTweening (i : Nat)
  | checkSetDraggable (i : Nat)
  | setRaiseAndShadowOffset (i : Nat)
deriving DecidableEq, Repr

/-- The state of one LayoutChild that doLayout reads and writes: current
geometry, visibility, natural (unscaled) size, the tween-handle slot, the
pending-misplay flag, and the suit index of its card (used to resolve the
play-pile anchor). -/
structure LayoutChildState where
  x : ℚ := 0
  y : ℚ := 0
  scaleX : ℚ := 1
  scaleY : ℚ := 1
  rotation : ℚ := 0
  opacity : ℚ := 1
  visible : Bool := true
  width : ℚ := 0
  height : ℚ := 0
  tween : Option Nat := none
  doMisplayAnimation : Bool := false
  suitIndex : Nat := 0
deriving DecidableEq, Repr, Inhabited

/-- The global flags doLayout reads: lobby.settings.keldonMode,
globals.animateFast, and options.speedrun. -/
structure GlobalFlags where
  keldonMode : Bool
  animateFast : Bool
  speedrun : Bool
deriving DecidableEq, Repr

/-- The context of one doLayout call: the flags, the container bounding
box, alignment and reverse configuration, the container absolute position,
and the play-stack lookup (absolute position and height by suit index)
used by the misplay animation. -/
structure DoLayoutCtx where
  flags : GlobalFlags
  handWidth : ℚ
  handHeight : ℚ
  align : String
  reverse : Bool
  containerAbsPos : Pos
  playStackAbsPos : Nat → Pos
  playStackHeight : Nat → ℚ

/-- The tween driver state: the next fresh handle id and the list of
tweens currently in flight. -/
structure TweenSystem where
  nextId : Nat
  live : List LiveTween
deriving DecidableEq, Repr

/-- The state threaded through the per-child loop of doLayout: the running
cursor x, the tween driver state, the children processed so far (in
order), and the notifications emitted so far. -/
structure LoopState where
  x : ℚ
  nextId : Nat
  live : List LiveTween
  done : List LayoutChildState
  events : List Event
deriving DecidableEq, Repr

/-- The result of a doLayout pass. -/
structure DoLayoutResult where
  children : List LayoutChildState
  sys : TweenSystem
  events : List Event
deriving DecidableEq, Repr

/-- Destroying the tween referenced by a child tween-handle slot: the
tween with that handle id is removed from the in-flight list
(layoutChild.tween.destroy(); layoutChild.tween = null). -/
def destroyTween (live : List LiveTween) (slot : Option Nat) : List LiveTween :=
  match slot with
  | some id0 => live.filter (fun t => decide (t.id ≠ id0))
  | none => live

/-- The in-flight tweens that animate child i. -/
def liveFor (i : Nat) (live : List LiveTween) : List LiveTween :=
  live.filter (fun t => decide (t.childIdx = i))

/-- The accumulation loop of doLayout lines 74-84: for each child with
positive natural height, scale = handHeight / height and
uw = uw + scale * width; other children are skipped. -/
def computeUw (H : ℚ) (children : List LayoutChildState) : ℚ :=
  children.foldl (fun uw c => if c.height ≤ 0 then uw else uw + H / c.height * c.width) 0

/-- doLayout lines 86-96: spacingBetweenCards is (W - uw) / (numCards - 1)
when numCards exceeds 1 and 0 otherwise, then clamped above by
0.04 * uw, or 0.025 * uw when keldonMode is set. -/
def computeSpacing (keldonMode : Bool) (W H : ℚ) (children : List LayoutChildState) : ℚ :=
  let numCards := children.length
  let uw := computeUw H children
  let spacing := if 1 < numCards then (W - uw) / ((numCards : ℚ) - 1) else 0
  let maxSpacing := if keldonMode then (0.025 : ℚ) * uw else (0.04 : ℚ) * uw
  if maxSpacing < spacing then maxSpacing else spacing

/-- doLayout lines 99-105: the starting cursor, from the alignment, the
reverse flag, the container width, and the used width after the spacing
update. -/
def computeX0 (align : String) (reverse : Bool) (W uw : ℚ) : ℚ :=
  let x := if align = "center" ∧ uw < W then (W - uw) / 2 else 0
  if reverse then W - x else x

/-- The parameters of the plain layout tween of doLayout lines 144-163. -/
def layoutTweenSpec (ctx : DoLayoutCtx) (newX scale : ℚ) : TweenSpec :=
  { duration := CARD_ANIMATION_LENGTH, x := newX, y := 0, scale := scale,
    rotation := 0, opacity := 1, easing := Easing.easeOut,
    allowFast := !ctx.flags.speedrun }

/-- The parameters of the first-phase misplay tween of doLayout lines
175-192: the target is the play-stack absolute position minus the
container absolute position, and the scale is the play-stack height times
the child scale divided by the hand height. -/
def misplayTweenSpec (ctx : DoLayoutCtx) (suitIndex : Nat) (scale : ℚ) : TweenSpec :=
  { duration := CARD_ANIMATION_LENGTH,
    x := (ctx.playStackAbsPos suitIndex).x - ctx.containerAbsPos.x,
    y := (ctx.playStackAbsPos suitIndex).y - ctx.containerAbsPos.y,
    scale := ctx.playStackHeight suitIndex * scale / ctx.handHeight,
    rotation := 0, opacity := 1, easing := Easing.easeOut,
    allowFast := !ctx.flags.speedrun }

/-- The body of the doLayout per-child loop, lines 107-201.  The child is
forced visible; a child with non-positive natural height is then skipped
(the loop continues with everything else unchanged).  Otherwise the tween
in the child slot is destroyed, and either the geometry is snapped
synchronously (animateFast) or a tween is scheduled: the misplay tween
chaining into the layout tween when the pending-misplay flag is set, the
layout tween alone otherwise.  The tween driver call (animate, in
konvaHelpers.ts, which is not among the sources) is modelled from the
spec: it creates a tween with the given parameters and completion
behavior, stores its handle in the child slot, and registers it in
flight.  Finally the cursor advances by (scale * width + spacing), negated
when the container is reversed. -/
def doLayoutStep (ctx : DoLayoutCtx) (spacing : ℚ) (st : LoopState) (c0 : LayoutChildState) :
    LoopState :=
  let i := st.done.length
  let c1 := { c0 with visible := true }
  if c1.height ≤ 0 then
    { st with done := st.done ++ [c1] }
  else
    let scale := ctx.handHeight / c1.height
    let live1 := destroyTween st.live c1.tween
    let c2 := { c1 with tween := none }
    let newX := st.x - (if ctx.reverse then scale * c1.width else 0)
    let xNext := st.x + (scale * c1.width + spacing) * (if ctx.reverse then -1 else 1)
    if ctx.flags.animateFast then
      let cSnap := { c2 with x := newX, y := 0, scaleX := scale, scaleY := scale, rotation := 0, opacity := 1, doMisplayAnimation := false }
      { x := xNext, nextId := st.nextId, live := live1, done := st.done ++ [cSnap],
        events := st.events ++ [Event.checkSetDraggable i, Event.setRaiseAndShadowOffset i] }
    else
      let lspec := layoutTweenSpec ctx newX scale
      if c2.doMisplayAnimation then
        let newT : LiveTween := ⟨st.nextId, i, misplayTweenSpec ctx c1.suitIndex scale, OnFinish.misplayDone lspec⟩
        { x := xNext, nextId := st.nextId + 1, live := live1 ++ [newT],
          done := st.done ++ [{ c2 with doMisplayAnimation := false, tween := some st.nextId }],
          events := st.events ++ [Event.startedTweening i, Event.setRaiseAndShadowOffset i] }
      else
        let newT : LiveTween := ⟨st.nextId, i, lspec, OnFinish.layoutDone⟩
        { x := xNext, nextId := st.nextId + 1, live := live1 ++ [newT],
          done := st.done ++ [{ c2 with tween := some st.nextId }],
          events := st.events ++ [Event.startedTweening i, Event.setRaiseAndShadowOffset i] }

/-- The per-child walk of doLayout: fold the loop body over the children
in order, starting from the computed cursor with no child processed yet. -/
def doLayoutLoop (ctx : DoLayoutCtx) (children : List LayoutChildState) (sys : TweenSystem) :
    LoopState :=
  let spacing := computeSpacing ctx.flags.keldonMode ctx.handWidth ctx.handHeight children
  let uw := computeUw ctx.handHeight children + spacing * ((children.length : ℚ) - 1)
  let x0 := computeX0 ctx.align ctx.reverse ctx.handWidth uw
  List.foldl (doLayoutStep ctx spacing)
    { x := x0, nextId := sys.nextId, live := sys.live, done := [], events := [] } children

/-- CardLayout.doLayout, lines 68-202: compute the used width, the
spacing, the starting cursor, then walk the children in order. -/
def doLayout (ctx : DoLayoutCtx) (children : List LayoutChildState) (sys : TweenSystem) :
    DoLayoutResult :=
  let final := doLayoutLoop ctx children sys
  { children := final.done, sys := { nextId := final.nextId, live := final.live },
    events := final.events }

/-- Running the completion callback of a tween on the child it animates:
the layout tween notifies finishedTweening and re-evaluates draggability;
the misplay tween snaps the child rotation to 360 and chains into the
second-phase layout tween (doLayout lines 156-159 and 186-189). -/
def runOnFinish (f : OnFinish) (c : LayoutChildState) (i : Nat) :
    LayoutChildState × List Event × List (TweenSpec × OnFinish) :=
  match f with
  | OnFinish.layoutDone => (c, [Event.finishedTweening i, Event.checkSetDraggable i], [])
  | OnFinish.misplayDone second =>
    ({ c with rotation := 360 }, [], [(second, OnFinish.layoutDone)])

/-- The per-child loop body as claim C3 describes it (NOT as the source
has it): a child with non-positive natural height keeps its geometry but
still advances the cursor by its zero accumulated width plus the spacing.
This definition follows the wording of the claim so that it can be
compared against doLayoutStep. -/
def doLayoutStepClaimed (ctx : DoLayoutCtx) (spacing : ℚ) (st : LoopState)
    (c0 : LayoutChildState) : LoopState :=
  let c1 := { c0 with visible := true }
  if c1.height ≤ 0 then
    { st with done := st.done ++ [c1], x := st.x + (0 + spacing) * (if ctx.reverse then -1 else 1) }
  else
    doLayoutStep ctx spacing st c0

/-- doLayout with the per-child loop replaced by the claim C3 variant. -/
def doLayoutClaimed (ctx : DoLayoutCtx) (children : List LayoutChildState)
    (sys : TweenSystem) : DoLayoutResult :=
  let spacing := computeSpacing ctx.flags.keldonMode ctx.handWidth ctx.handHeight children
  let uw := computeUw ctx.handHeight children + spacing * ((children.length : ℚ) - 1)
  let x0 := computeX0 ctx.align ctx.reverse ctx.handWidth uw
  let final := List.foldl (doLayoutStepClaimed ctx spacing)
    { x := x0, nextId := sys.nextId, live := sys.live, done := [], events := [] } children
  { children := final.done, sys := { nextId := final.nextId, live := final.live },
    events := final.events }

/-- The Konva container configuration consumed by the CardLayout
constructor; absent entries of the configuration object are none. -/
structure ContainerConfig where
  width : Option ℚ := none
  height : Option ℚ := none
  align : Option String := none
  reverse : Option Bool := none
  rotation : Option ℚ := none
deriving DecidableEq, Repr

/-- The fields a successfully constructed CardLayout holds. -/
structure CardLayoutState where
  align : String
  reverse : Bool
  origRotation : ℚ
  empathy : Bool
  width : ℚ
  height : ℚ
deriving DecidableEq, Repr

/-- The CardLayout constructor, lines 17-48: align defaults to "left"
(through a falsy-or, so the empty string also falls back), reverse
defaults to false, origRotation to 0, empathy starts false; an undefined
width is an error (checked first), then an undefined height. -/
def CardLayout.construct (config : ContainerConfig) : Except String CardLayoutState :=
  let align := match config.align with
    | none => "left"
    | some s => if s = "" then "left" else s
  let reverse := match config.reverse with
    | none => false
    | some b => b
  let origRotation := match config.rotation with
    | none => 0
    | some r => r
  match config.width with
  | none => Except.error "A width was not defined for a CardLayout."
  | some w =>
    match config.height with
    | none => Except.error "A height was not defined for a CardLayout."
    | some h =>
      Except.ok { align := align, reverse := reverse, origRotation := origRotation, empathy := false, width := w, height := h }

/-- CardLayout.getAbsoluteCenterPos, lines 210-226: convert the stored
clockwise-degree rotation to counter-clockwise radians and add the rotated
half extents to the top-left absolute position. -/
noncomputable def getAbsoluteCenterPos (pos : ℝ × ℝ) (w h origRotationDeg : ℝ) : ℝ × ℝ :=
  let rot := -origRotationDeg / 180 * Real.pi
  let x1 := pos.1 + w / 2 * Real.cos rot
  let y1 := pos.2 - w / 2 * Real.sin rot
  let x2 := x1 + h / 2 * Real.sin rot
  let y2 := y1 - h / 2 * -Real.cos rot
  (x2, y2)

/-- The pace-risk tiers of the pace label updater. -/
inductive PaceRisk
  | Zero
  | HighRisk
  | MediumRisk
  | LowRisk
  | Null
deriving DecidableEq, Repr

/-- A text label with a fill color, as the pace updater sees it. -/
structure LabelState where
  text : String
  fill : String
deriving DecidableEq, Repr

/-- onPaceOrPaceRiskChanged, lines 334-390, acting on the pace number
label: a null pace writes a dash with the default color; otherwise the
pace text is written (with a plus sign when positive) and the fill is set
by the risk tier, except that the Null tier only records a console error
message and leaves the fill untouched.  The second component is the list
of console error messages emitted. -/
def onPaceOrPaceRiskChanged (pace : Option Int) (paceRisk : PaceRisk) (label : LabelState) :
    LabelState × List String :=
  match pace with
  | none => ({ text := "-", fill := LABEL_COLOR }, [])
  | some p =>
    let paceText := if 0 < p then "+" ++ toString p else toString p
    let label1 := { label with text := paceText }
    match paceRisk with
    | PaceRisk.Zero => ({ label1 with fill := "#df1c2d" }, [])
    | PaceRisk.HighRisk => ({ label1 with fill := "#ef8c1d" }, [])
    | PaceRisk.MediumRisk => ({ label1 with fill := "#efef1d" }, [])
    | PaceRisk.LowRisk => ({ label1 with fill := LABEL_COLOR }, [])
    | PaceRisk.Null =>
      (label1, ["An invalid value of pace / risk was detected. Pace = " ++ toString p
        ++ ", Risk = Null"])

/-- A card-sized child used for concrete instantiations: natural size
100 by 100, no pending tween or misplay. -/
def exampleCard : LayoutChildState := { width := 100, height := 100 }

/-- A degenerate child with natural height 0 (and a recognizable prior
x position), used for the non-positive-height edge cases. -/
def zeroCard : LayoutChildState := { x := 7, width := 50, height := 0 }

/-- A child with the pending-misplay flag set, used for concrete misplay
instantiations. -/
def misCard : LayoutChildState := { width := 80, height := 100, doMisplayAnimation := true, suitIndex := 2 }

/-- The container of the worked example of the spec: width 400, height
100, center alignment, not reversed, instant mode. -/
def exampleCtx : DoLayoutCtx :=
  { flags := { keldonMode := false, animateFast := true, speedrun := false },
    handWidth := 400, handHeight := 100, align := "center", reverse := false,
    containerAbsPos := ⟨0, 0⟩, playStackAbsPos := fun _ => ⟨0, 0⟩, playStackHeight := fun _ => 0 }

/-- A left-aligned instant-mode container, used for the zero-height
cursor counterexample. -/
def leftCtx : DoLayoutCtx :=
  { flags := { keldonMode := false, animateFast := true, speedrun := false },
    handWidth := 400, handHeight := 100, align := "left", reverse := false,
    containerAbsPos := ⟨0, 0⟩, playStackAbsPos := fun _ => ⟨0, 0⟩, playStackHeight := fun _ => 0 }

/-- An animated-mode (not instant) container with a nontrivial play-stack
lookup, used for the animated-path instantiations. -/
def animCtx : DoLayoutCtx :=
  { flags := { keldonMode := false, animateFast := false, speedrun := false },
    handWidth := 400, handHeight := 100, align := "left", reverse := false,
    containerAbsPos := ⟨10, 20⟩, playStackAbsPos := fun _ => ⟨110, 220⟩,
    playStackHeight := fun _ => 50 }

/-- The tween-ownership invariant maintained by the per-child walk.  With
n0 the fresh-id watermark at the start of the pass and rem the children
not yet processed: every in-flight handle id is below the allocator,
the allocator is at or above the watermark, the tween slots of unprocessed
children are below the watermark, every in-flight tween of an unprocessed
child is the one referenced by that child slot, every in-flight tween of a
processed child is the one referenced by that child slot, every processed
child has exactly one in-flight tween and its id is at or above the
watermark, and the slots of processed children are below the allocator. -/
structure LayoutInv (n0 : Nat) (rem : List LayoutChildState) (st : LoopState) : Prop where
  fresh : ∀ t ∈ st.live, t.id < st.nextId
  nextGe : n0 ≤ st.nextId
  remSlots : ∀ c ∈ rem, ∀ id0, c.tween = some id0 → id0 < n0
  liveRem : ∀ t ∈ st.live, st.done.length ≤ t.childIdx →
    t.childIdx - st.done.length < rem.length ∧
      (rem.getD (t.childIdx - st.done.length) default).tween = some t.id
  liveDone : ∀ t ∈ st.live, t.childIdx < st.done.length →
    (st.done.getD t.childIdx default).tween = some t.id
  doneOne : ∀ i < st.done.length,
    (liveFor i st.live).length = 1 ∧ ∀ t ∈ liveFor i st.live, n0 ≤ t.id
  doneSlots : ∀ c ∈ st.done, ∀ id0, c.tween = some id0 → id0 < st.nextId

/-! Helper lemmas about getD, destroyTween, liveFor, and the loop body. -/

theorem getD_append_lt {α : Type} (l1 l2 : List α) (d : α) :
    ∀ i, i < l1.length → (l1 ++ l2).getD i d = l1.getD i d := by
  induction l1 with
  | nil => intro i hi; simp at hi
  | cons a t ih =>
    intro i hi
    cases i with
    | zero => rfl
    | succ n =>
      simp only [List.cons_append, List.getD_cons_succ]
      exact ih n (by simpa using hi)

theorem getD_append_length {α : Type} (l : List α) (a d : α) :
    (l ++ [a]).getD l.length d = a := by
  induction l with
  | nil => rfl
  | cons b t ih =>
    simp only [List.cons_append, List.length_cons, List.getD_cons_succ]
    exact ih

theorem mem_destroyTween {live : List LiveTween} {slot : Option Nat} {t : LiveTween}
    (h : t ∈ destroyTween live slot) : t ∈ live := by
  cases slot with
  | none => exact h
  | some id0 => exact List.mem_of_mem_filter h

theorem destroyTween_ne {live : List LiveTween} {id0 : Nat} {t : LiveTween}
    (h : t ∈ destroyTween live (some id0)) : t.id ≠ id0 := by
  have h2 := List.of_mem_filter h
  simpa using h2

theorem mem_liveFor {i : Nat} {live : List LiveTween} {t : LiveTween} :
    t ∈ liveFor i live ↔ t ∈ live ∧ t.childIdx = i := by
  simp [liveFor]

theorem liveFor_append (i : Nat) (l1 l2 : List LiveTween) :
    liveFor i (l1 ++ l2) = liveFor i l1 ++ liveFor i l2 := by
  simp [liveFor]

theorem liveFor_singleton_self {i : Nat} {t : LiveTween} (h : t.childIdx = i) :
    liveFor i [t] = [t] := by
  simp [liveFor, h]

theorem liveFor_singleton_ne {i : Nat} {t : LiveTween} (h : t.childIdx ≠ i) :
    liveFor i [t] = [] := by
  simp [liveFor, h]

theorem liveFor_destroy_of_ne {i id0 : Nat} {live : List LiveTween}
    (h : ∀ t ∈ live, t.childIdx = i → t.id ≠ id0) :
    liveFor i (destroyTween live (some id0)) = liveFor i live := by
  show List.filter _ (List.filter _ live) = List.filter _ live
  rw [List.filter_comm]
  apply List.filter_eq_self.mpr
  intro t ht
  have hmem := List.mem_of_mem_filter ht
  have hidx : t.childIdx = i := by simpa using List.of_mem_filter ht
  simpa using h t hmem hidx

theorem liveFor_destroy_all {i id0 : Nat} {live : List LiveTween}
    (h : ∀ t ∈ live, t.childIdx = i → t.id = id0) :
    liveFor i (destroyTween live (some id0)) = [] := by
  apply List.filter_eq_nil_iff.mpr
  intro t ht
  have hmem := List.mem_of_mem_filter ht
  have hne := destroyTween_ne ht
  intro hidx
  exact absurd (h t hmem (by simpa using hidx)) hne

theorem liveFor_nil_of_no_owner {i : Nat} {live : List LiveTween}
    (h : ∀ t ∈ live, t.childIdx ≠ i) : liveFor i live = [] := by
  apply List.filter_eq_nil_iff.mpr
  intro t ht
  simpa using h t ht

theorem doLayoutStep_done_length (ctx : DoLayoutCtx) (spacing : ℚ) (st : LoopState)
    (c : LayoutChildState) :
    (doLayoutStep ctx spacing st c).done.length = st.done.length + 1 := by
  simp only [doLayoutStep]
  split_ifs <;> simp

theorem doLayoutStep_done_mem (ctx : DoLayoutCtx) (spacing : ℚ) (st : LoopState)
    (c : LayoutChildState) :
    ∀ c2 ∈ (doLayoutStep ctx spacing st c).done, c2 ∈ st.done ∨ c2.height = c.height := by
  simp only [doLayoutStep]
  split_ifs <;>
    (intro c2 hc2
     rcases List.mem_append.mp hc2 with h | h
     · exact Or.inl h
     · rw [List.mem_singleton] at h
       subst h
       exact Or.inr rfl)

theorem doLayoutStep_events_shape (ctx : DoLayoutCtx) (spacing : ℚ) (st : LoopState)
    (c : LayoutChildState) :
    (doLayoutStep ctx spacing st c).events = st.events ∨
    (doLayoutStep ctx spacing st c).events = st.events ++
      [Event.checkSetDraggable st.done.length, Event.setRaiseAndShadowOffset st.done.length] ∨
    (doLayoutStep ctx spacing st c).events = st.events ++
      [Event.startedTweening st.done.length, Event.setRaiseAndShadowOffset st.done.length] := by
  simp only [doLayoutStep]
  split_ifs <;> simp

theorem doLayoutStep_events_fast (ctx : DoLayoutCtx) (spacing : ℚ) (st : LoopState)
    (c : LayoutChildState) (hfast : ctx.flags.animateFast = true) :
    (doLayoutStep ctx spacing st c).events = st.events ∨
    (doLayoutStep ctx spacing st c).events = st.events ++
      [Event.checkSetDraggable st.done.length, Event.setRaiseAndShadowOffset st.done.length] := by
  simp only [doLayoutStep, hfast]
  split_ifs <;> simp

theorem doLayoutStep_animated (ctx : DoLayoutCtx) (spacing : ℚ) (st : LoopState)
    (c : LayoutChildState) (hfast : ctx.flags.animateFast = false) (hpos : 0 < c.height) :
    ∃ (sp : TweenSpec) (ofin : OnFinish) (cN : LayoutChildState),
      doLayoutStep ctx spacing st c =
        { x := st.x + (ctx.handHeight / c.height * c.width + spacing) *
            (if ctx.reverse then -1 else 1),
          nextId := st.nextId + 1,
          live := destroyTween st.live c.tween ++ [⟨st.nextId, st.done.length, sp, ofin⟩],
          done := st.done ++ [cN],
          events := st.events ++ [Event.startedTweening st.done.length,
            Event.setRaiseAndShadowOffset st.done.length] } ∧
      cN.tween = some st.nextId ∧ cN.height = c.height := by
  by_cases hm : c.doMisplayAnimation = true
  · refine ⟨misplayTweenSpec ctx c.suitIndex (ctx.handHeight / c.height),
      OnFinish.misplayDone (layoutTweenSpec ctx
        (st.x - (if ctx.reverse then ctx.handHeight / c.height * c.width else 0))
        (ctx.handHeight / c.height)),
      { c with visible := true, tween := some st.nextId, doMisplayAnimation := false },
      ?_, rfl, rfl⟩
    simp only [doLayoutStep, hfast, hm]
    rw [if_neg (not_le.mpr hpos), if_neg Bool.false_ne_true, if_pos trivial]
  · rw [Bool.not_eq_true] at hm
    refine ⟨layoutTweenSpec ctx
        (st.x - (if ctx.reverse then ctx.handHeight / c.height * c.width else 0))
        (ctx.handHeight / c.height),
      OnFinish.layoutDone,
      { c with visible := true, tween := some st.nextId },
      ?_, rfl, rfl⟩
    simp only [doLayoutStep, hfast, hm]
    rw [if_neg (not_le.mpr hpos), if_neg Bool.false_ne_true, if_neg Bool.false_ne_true]

theorem LayoutInv.step (ctx : DoLayoutCtx) (spacing : ℚ) {n0 : Nat} {c : LayoutChildState}
    {rem : List LayoutChildState} {st : LoopState}
    (hfast : ctx.flags.animateFast = false) (hpos : 0 < c.height)
    (hinv : LayoutInv n0 (c :: rem) st) :
    LayoutInv n0 rem (doLayoutStep ctx spacing st c) := by
  obtain ⟨sp, ofin, cN, hstep, hcN, hcNh⟩ := doLayoutStep_animated ctx spacing st c hfast hpos
  rw [hstep]
  have hcslot : ∀ id0, c.tween = some id0 → id0 < n0 :=
    hinv.remSlots c (List.mem_cons_self c rem)
  refine ⟨?_, ?_, ?_, ?_, ?_, ?_, ?_⟩
  · -- fresh
    intro t ht
    show t.id < st.nextId + 1
    rcases List.mem_append.mp ht with h | h
    · exact Nat.lt_succ_of_lt (hinv.fresh t (mem_destroyTween h))
    · rw [List.mem_singleton] at h
      subst h
      exact Nat.lt_succ_self _
  · -- nextGe
    exact Nat.le_succ_of_le hinv.nextGe
  · -- remSlots
    intro c2 hc2
    exact hinv.remSlots c2 (List.mem_cons_of_mem c hc2)
  · -- liveRem
    intro t ht hge
    have hge2 : st.done.length + 1 ≤ t.childIdx := by simpa using hge
    have hlen : (st.done ++ [cN]).length = st.done.length + 1 := by simp
    rcases List.mem_append.mp ht with h | h
    · have hmem := mem_destroyTween h
      have hold := hinv.liveRem t hmem (by omega)
      obtain ⟨j2, hj2⟩ : ∃ j2, t.childIdx - st.done.length = j2 + 1 :=
        ⟨t.childIdx - st.done.length - 1, by omega⟩
      rw [hj2] at hold
      have hbound : t.childIdx - (st.done ++ [cN]).length = j2 := by
        rw [hlen]; omega
      rw [hbound]
      refine ⟨by simpa using hold.1, ?_⟩
      have h2 := hold.2
      simpa using h2
    · rw [List.mem_singleton] at h
      subst h
      exfalso
      have h2 : st.done.length + 1 ≤ st.done.length := hge2
      omega
  · -- liveDone
    intro t ht hlt
    have hlt2 : t.childIdx < st.done.length + 1 := by simpa using hlt
    rcases List.mem_append.mp ht with h | h
    · have hmem := mem_destroyTween h
      by_cases hc2 : t.childIdx < st.done.length
      · rw [getD_append_lt st.done [cN] default t.childIdx hc2]
        exact hinv.liveDone t hmem hc2
      · exfalso
        have heq : t.childIdx = st.done.length := by omega
        have hold := hinv.liveRem t hmem (by omega)
        rw [heq] at hold
        have hslot : c.tween = some t.id := by simpa using hold.2
        rw [hslot] at h
        exact destroyTween_ne h rfl
    · rw [List.mem_singleton] at h
      subst h
      show ((st.done ++ [cN]).getD st.done.length default).tween = some st.nextId
      rw [getD_append_length st.done cN default]
      exact hcN
  · -- doneOne
    intro i hi
    have hi2 : i < st.done.length + 1 := by simpa using hi
    show (liveFor i (destroyTween st.live c.tween ++
        [(⟨st.nextId, st.done.length, sp, ofin⟩ : LiveTween)])).length = 1 ∧
      ∀ t ∈ liveFor i (destroyTween st.live c.tween ++
        [(⟨st.nextId, st.done.length, sp, ofin⟩ : LiveTween)]), n0 ≤ t.id
    rw [liveFor_append]
    by_cases hceq : i = st.done.length
    · subst hceq
      have h1 : liveFor st.done.length [(⟨st.nextId, st.done.length, sp, ofin⟩ : LiveTween)] =
          [⟨st.nextId, st.done.length, sp, ofin⟩] := liveFor_singleton_self rfl
      have h0 : liveFor st.done.length (destroyTween st.live c.tween) = [] := by
        cases hslot : c.tween with
        | none =>
          show liveFor st.done.length st.live = []
          apply liveFor_nil_of_no_owner
          intro t ht hidx
          have hold := hinv.liveRem t ht (by omega)
          rw [hidx] at hold
          have h3 : c.tween = some t.id := by simpa using hold.2
          rw [hslot] at h3
          cases h3
        | some id0 =>
          apply liveFor_destroy_all
          intro t ht hidx
          have hold := hinv.liveRem t ht (by omega)
          rw [hidx] at hold
          have h3 : c.tween = some t.id := by simpa using hold.2
          rw [hslot] at h3
          exact (Option.some.inj h3).symm
      rw [h0, h1]
      refine ⟨by simp, ?_⟩
      intro t ht
      rw [List.nil_append, List.mem_singleton] at ht
      subst ht
      exact hinv.nextGe
    · have hilt : i < st.done.length := by omega
      have h1 : liveFor i [(⟨st.nextId, st.done.length, sp, ofin⟩ : LiveTween)] = [] :=
        liveFor_singleton_ne (show (⟨st.nextId, st.done.length, sp, ofin⟩ : LiveTween).childIdx ≠ i from fun h => hceq h.symm)
      have h0 : liveFor i (destroyTween st.live c.tween) = liveFor i st.live := by
        cases hslot : c.tween with
        | none => rfl
        | some id0 =>
          apply liveFor_destroy_of_ne
          intro t ht hidx
          have hge := (hinv.doneOne i hilt).2 t (mem_liveFor.mpr ⟨ht, hidx⟩)
          have hlt0 : id0 < n0 := hcslot id0 hslot
          omega
      rw [h0, h1, List.append_nil]
      exact hinv.doneOne i hilt
  · -- doneSlots
    intro c2 hc2 id0 h0
    show id0 < st.nextId + 1
    rcases List.mem_append.mp hc2 with h | h
    · exact Nat.lt_succ_of_lt (hinv.doneSlots c2 h id0 h0)
    · rw [List.mem_singleton] at h
      subst h
      rw [hcN] at h0
      injection h0 with h1
      rw [← h1]
      exact Nat.lt_succ_self _

theorem LayoutInv.foldl (ctx : DoLayoutCtx) (spacing : ℚ) (hfast : ctx.flags.animateFast = false) :
    ∀ (rem : List LayoutChildState) (st : LoopState) (n0 : Nat),
      (∀ c ∈ rem, 0 < c.height) → LayoutInv n0 rem st →
      LayoutInv n0 [] (List.foldl (doLayoutStep ctx spacing) st rem) := by
  intro rem
  induction rem with
  | nil => intro st n0 _ hinv; exact hinv
  | cons c rest ih =>
    intro st n0 hpos hinv
    rw [List.foldl_cons]
    exact ih (doLayoutStep ctx spacing st c) n0
      (fun c2 h => hpos c2 (List.mem_cons_of_mem c h))
      (LayoutInv.step ctx spacing hfast (hpos c (List.mem_cons_self c rest)) hinv)

theorem LayoutInv.initial (n0 : Nat) (x0 : ℚ) (children : List LayoutChildState)
    (hslots : ∀ c ∈ children, ∀ id0, c.tween = some id0 → id0 < n0) :
    LayoutInv n0 children { x := x0, nextId := n0, live := [], done := [], events := [] } := by
  refine ⟨?_, le_refl n0, hslots, ?_, ?_, ?_, ?_⟩
  · intro t ht; cases ht
  · intro t ht; cases ht
  · intro t ht; cases ht
  · intro i hi; cases hi
  · intro c hc; cases hc

theorem LayoutInv.restart {n0 : Nat} {F : LoopState} (hinv : LayoutInv n0 [] F) (x0 : ℚ) :
    LayoutInv F.nextId F.done
      { x := x0, nextId := F.nextId, live := F.live, done := [], events := [] } := by
  have hbound : ∀ t ∈ F.live, t.childIdx < F.done.length := by
    intro t ht
    by_contra hge
    have h2 := hinv.liveRem t ht (by omega)
    have h3 := h2.1
    simp at h3
  refine ⟨?_, le_refl _, ?_, ?_, ?_, ?_, ?_⟩
  · exact fun t ht => hinv.fresh t ht
  · exact fun c hc => hinv.doneSlots c hc
  · intro t ht _
    refine ⟨by simpa using hbound t ht, ?_⟩
    show (F.done.getD (t.childIdx - 0) default).tween = some t.id
    rw [Nat.sub_zero]
    exact hinv.liveDone t ht (hbound t ht)
  · intro t ht hlt
    exact absurd hlt (by simp)
  · intro i hi
    exact absurd hi (by simp)
  · intro c hc
    cases hc

theorem foldl_done_length (ctx : DoLayoutCtx) (spacing : ℚ) :
    ∀ (l : List LayoutChildState) (st : LoopState),
      (List.foldl (doLayoutStep ctx spacing) st l).done.length = st.done.length + l.length := by
  intro l
  induction l with
  | nil => intro st; simp
  | cons c rest ih =>
    intro st
    rw [List.foldl_cons, ih, doLayoutStep_done_length]
    simp [Nat.add_assoc, Nat.add_comm 1 rest.length]

theorem foldl_heights (ctx : DoLayoutCtx) (spacing : ℚ) :
    ∀ (l : List LayoutChildState) (st : LoopState),
      (∀ c ∈ l, 0 < c.height) → (∀ c ∈ st.done, 0 < c.height) →
      ∀ c2 ∈ (List.foldl (doLayoutStep ctx spacing) st l).done, 0 < c2.height := by
  intro l
  induction l with
  | nil => intro st _ hd; exact hd
  | cons c rest ih =>
    intro st hl hd
    rw [List.foldl_cons]
    apply ih (doLayoutStep ctx spacing st c) (fun c2 h => hl c2 (List.mem_cons_of_mem c h))
    intro c2 hc2
    rcases doLayoutStep_done_mem ctx spacing st c c2 hc2 with h | h
    · exact hd c2 h
    · rw [h]
      exact hl c (List.mem_cons_self c rest)

theorem doLayoutStep_events_mono (ctx : DoLayoutCtx) (spacing : ℚ) (st : LoopState)
    (c : LayoutChildState) {e : Event} (he : e ∈ st.events) :
    e ∈ (doLayoutStep ctx spacing st c).events := by
  rcases doLayoutStep_events_shape ctx spacing st c with h | h | h <;> rw [h]
  · exact he
  · exact List.mem_append_left _ he
  · exact List.mem_append_left _ he

theorem foldl_events_mono (ctx : DoLayoutCtx) (spacing : ℚ) :
    ∀ (l : List LayoutChildState) (st : LoopState) (e : Event), e ∈ st.events →
      e ∈ (List.foldl (doLayoutStep ctx spacing) st l).events := by
  intro l
  induction l with
  | nil => intro st e he; exact he
  | cons c rest ih =>
    intro st e he
    rw [List.foldl_cons]
    exact ih _ e (doLayoutStep_events_mono ctx spacing st c he)

theorem foldl_events_shape (ctx : DoLayoutCtx) (spacing : ℚ) :
    ∀ (l : List LayoutChildState) (st : LoopState) (e : Event),
      e ∈ (List.foldl (doLayoutStep ctx spacing) st l).events →
      e ∈ st.events ∨ ∃ i, e = Event.checkSetDraggable i ∨
        e = Event.setRaiseAndShadowOffset i ∨ e = Event.startedTweening i := by
  intro l
  induction l with
  | nil => intro st e he; exact Or.inl he
  | cons c rest ih =>
    intro st e he
    rw [List.foldl_cons] at he
    rcases ih _ e he with h | h
    · rcases doLayoutStep_events_shape ctx spacing st c with h2 | h2 | h2 <;> rw [h2] at h
      · exact Or.inl h
      · rcases List.mem_append.mp h with h3 | h3
        · exact Or.inl h3
        · rcases List.mem_cons.mp h3 with h4 | h4
          · exact Or.inr ⟨st.done.length, Or.inl h4⟩
          · rw [List.mem_singleton] at h4
            exact Or.inr ⟨st.done.length, Or.inr (Or.inl h4)⟩
      · rcases List.mem_append.mp h with h3 | h3
        · exact Or.inl h3
        · rcases List.mem_cons.mp h3 with h4 | h4
          · exact Or.inr ⟨st.done.length, Or.inr (Or.inr h4)⟩
          · rw [List.mem_singleton] at h4
            exact Or.inr ⟨st.done.length, Or.inr (Or.inl h4)⟩
    · exact Or.inr h

theorem foldl_events_shape_fast (ctx : DoLayoutCtx) (spacing : ℚ)
    (hfast : ctx.flags.animateFast = true) :
    ∀ (l : List LayoutChildState) (st : LoopState) (e : Event),
      e ∈ (List.foldl (doLayoutStep ctx spacing) st l).events →
      e ∈ st.events ∨ ∃ i, e = Event.checkSetDraggable i ∨
        e = Event.setRaiseAndShadowOffset i := by
  intro l
  induction l with
  | nil => intro st e he; exact Or.inl he
  | cons c rest ih =>
    intro st e he
    rw [List.foldl_cons] at he
    rcases ih _ e he with h | h
    · rcases doLayoutStep_events_fast ctx spacing st c hfast with h2 | h2 <;> rw [h2] at h
      · exact Or.inl h
      · rcases List.mem_append.mp h with h3 | h3
        · exact Or.inl h3
        · rcases List.mem_cons.mp h3 with h4 | h4
          · exact Or.inr ⟨st.done.length, Or.inl h4⟩
          · rw [List.mem_singleton] at h4
            exact Or.inr ⟨st.done.length, Or.inr h4⟩
    · exact Or.inr h

theorem foldl_started_mem (ctx : DoLayoutCtx) (spacing : ℚ)
    (hfast : ctx.flags.animateFast = false) :
    ∀ (l : List LayoutChildState) (st : LoopState), (∀ c ∈ l, 0 < c.height) →
      ∀ j < l.length,
        Event.startedTweening (st.done.length + j) ∈
          (List.foldl (doLayoutStep ctx spacing) st l).events := by
  intro l
  induction l with
  | nil => intro st _ j hj; exact absurd hj (by simp)
  | cons c rest ih =>
    intro st hpos j hj
    rw [List.foldl_cons]
    cases j with
    | zero =>
      apply foldl_events_mono
      obtain ⟨sp, ofin, cN, hstep, _, _⟩ :=
        doLayoutStep_animated ctx spacing st c hfast (hpos c (List.mem_cons_self c rest))
      rw [hstep]
      show Event.startedTweening (st.done.length + 0) ∈ st.events ++
        [Event.startedTweening st.done.length, Event.setRaiseAndShadowOffset st.done.length]
      apply List.mem_append_right
      simp
    | succ j2 =>
      have hlen := doLayoutStep_done_length ctx spacing st c
      have h2 := ih (doLayoutStep ctx spacing st c)
        (fun c2 h => hpos c2 (List.mem_cons_of_mem c h)) j2 (by simpa using hj)
      rw [hlen] at h2
      have harith : st.done.length + (j2 + 1) = st.done.length + 1 + j2 := by omega
      rw [harith]
      exact h2

/-! Claim theorems. -/

/-- C1: in doLayout, for a container with more than one child (used width
counting only the positive-natural-height children), the inter-card
spacing is (W - usedWidth) / (n - 1) clamped above by 0.04 * usedWidth,
or 0.025 * usedWidth in keldon mode, and negative spacing is passed
through unclamped. -/
theorem computeSpacing_clamped (keldonMode : Bool) (W H : ℚ)
    (children : List LayoutChildState) (hn : 1 < children.length)
    (huw : 0 ≤ computeUw H children) :
    computeSpacing keldonMode W H children =
      min ((W - computeUw H children) / ((children.length : ℚ) - 1))
        ((if keldonMode then (0.025 : ℚ) else 0.04) * computeUw H children) ∧
    ((W - computeUw H children) / ((children.length : ℚ) - 1) < 0 →
      computeSpacing keldonMode W H children =
        (W - computeUw H children) / ((children.length : ℚ) - 1)) := by
  have hfactor : (if keldonMode then (0.025 : ℚ) * computeUw H children
      else (0.04 : ℚ) * computeUw H children) =
      (if keldonMode then (0.025 : ℚ) else 0.04) * computeUw H children := by
    cases keldonMode <;> rfl
  have hunfold : computeSpacing keldonMode W H children =
      if ((if keldonMode then (0.025 : ℚ) else 0.04) * computeUw H children) <
          (W - computeUw H children) / ((children.length : ℚ) - 1)
        then (if keldonMode then (0.025 : ℚ) else 0.04) * computeUw H children
        else (W - computeUw H children) / ((children.length : ℚ) - 1) := by
    simp only [computeSpacing, if_pos hn, hfactor]
  have hcapnn : 0 ≤ (if keldonMode then (0.025 : ℚ) else 0.04) * computeUw H children := by
    apply mul_nonneg _ huw
    cases keldonMode <;> norm_num
  constructor
  · rw [hunfold]
    rcases le_or_lt ((W - computeUw H children) / ((children.length : ℚ) - 1))
        ((if keldonMode then (0.025 : ℚ) else 0.04) * computeUw H children) with h | h
    · rw [if_neg (not_lt.mpr h), min_eq_left h]
    · rw [if_pos h, min_eq_right h.le]
  · intro hneg
    rw [hunfold, if_neg (not_lt.mpr (hneg.le.trans hcapnn))]

theorem computeSpacing_clamped_witness :
    computeSpacing false 400 100 [exampleCard, exampleCard] =
      min ((400 - computeUw 100 [exampleCard, exampleCard]) /
          ((([exampleCard, exampleCard] : List LayoutChildState).length : ℚ) - 1))
        ((if false then (0.025 : ℚ) else 0.04) * computeUw 100 [exampleCard, exampleCard]) :=
  (computeSpacing_clamped false 400 100 [exampleCard, exampleCard] (by norm_num)
    (by norm_num [computeUw, exampleCard])).1

/-- C5: getAbsoluteCenterPos returns, for top-left absolute position pos,
width W, height H, and fixed origin rotation θ with r the corresponding
counter-clockwise radians, the point (pos.x + (W/2) cos r + (H/2) sin r,
pos.y - (W/2) sin r + (H/2) cos r); for θ = 0 it reduces to
pos + (W/2, H/2). -/
theorem getAbsoluteCenterPos_formula (pos : ℝ × ℝ) (w h θ : ℝ) :
    getAbsoluteCenterPos pos w h θ =
      (pos.1 + w / 2 * Real.cos (-θ * Real.pi / 180) + h / 2 * Real.sin (-θ * Real.pi / 180),
        pos.2 - w / 2 * Real.sin (-θ * Real.pi / 180) +
          h / 2 * Real.cos (-θ * Real.pi / 180)) ∧
    getAbsoluteCenterPos pos w h 0 = (pos.1 + w / 2, pos.2 + h / 2) := by
  have harg : -θ / 180 * Real.pi = -θ * Real.pi / 180 := by ring
  constructor
  · simp only [getAbsoluteCenterPos, harg, Prod.mk.injEq]
    constructor <;> ring_nf
  · simp only [getAbsoluteCenterPos, neg_zero, zero_div, zero_mul, Real.cos_zero,
      Real.sin_zero, Prod.mk.injEq]
    constructor <;> ring_nf

/-- C6 counterexample: with a non-null pace and the Null risk tier, the
updater logs but does not reset the fill to the default color, so it does
not behave like the LowRisk default tier: starting from a red fill, Null
leaves red while LowRisk writes the default color. -/
theorem pace_null_fill_counterexample :
    (onPaceOrPaceRiskChanged (some 1) PaceRisk.Null ⟨"-", "#df1c2d"⟩).1.fill = "#df1c2d" ∧
    (onPaceOrPaceRiskChanged (some 1) PaceRisk.LowRisk ⟨"-", "#df1c2d"⟩).1.fill = LABEL_COLOR ∧
    "#df1c2d" ≠ LABEL_COLOR ∧
    (onPaceOrPaceRiskChanged (some 1) PaceRisk.Null ⟨"-", "#df1c2d"⟩).2 ≠ [] := by
  refine ⟨rfl, rfl, ?_, ?_⟩
  · decide
  · decide

/-- C6 amended: with a non-null pace and the Null risk tier, the updater
writes the pace text like every other tier, emits a diagnostic console
error, and leaves the label fill unchanged (it does not fall back to the
default color). -/
theorem pace_null_behavior (p : Int) (label : LabelState) :
    (onPaceOrPaceRiskChanged (some p) PaceRisk.Null label).1.fill = label.fill ∧
    (onPaceOrPaceRiskChanged (some p) PaceRisk.Null label).1.text =
      (if 0 < p then "+" ++ toString p else toString p) ∧
    (onPaceOrPaceRiskChanged (some p) PaceRisk.Null label).2 =
      ["An invalid value of pace / risk was detected. Pace = " ++ toString p
        ++ ", Risk = Null"] :=
  ⟨rfl, rfl, rfl⟩

/-- C7: for a 400 by 100 center-aligned non-reversed container with four
100 by 100 children, the used width before spacing is 400, the spacing is
0, the starting offset is 0, and the children are placed at x = 0, 100,
200, 300 with scale 1. -/
theorem doLayout_example_four_cards :
    computeUw 100 [exampleCard, exampleCard, exampleCard, exampleCard] = 400 ∧
    computeSpacing false 400 100 [exampleCard, exampleCard, exampleCard, exampleCard] = 0 ∧
    computeX0 "center" false 400 400 = 0 ∧
    ((doLayout exampleCtx [exampleCard, exampleCard, exampleCard, exampleCard]
      ⟨0, []⟩).children.map LayoutChildState.x) = [0, 100, 200, 300] ∧
    ((doLayout exampleCtx [exampleCard, exampleCard, exampleCard, exampleCard]
      ⟨0, []⟩).children.map LayoutChildState.scaleX) = [1, 1, 1, 1] ∧
    ((doLayout exampleCtx [exampleCard, exampleCard, exampleCard, exampleCard]
      ⟨0, []⟩).children.map LayoutChildState.scaleY) = [1, 1, 1, 1] := by
  refine ⟨?_, ?_, ?_, ?_, ?_, ?_⟩ <;>
    norm_num [doLayout, doLayoutLoop, doLayoutStep, computeSpacing, computeUw, computeX0,
      destroyTween, exampleCtx, exampleCard]

/-- C3 counterexample: with children of natural sizes 100x100, 50x0, and
100x100 in a 400x100 left-aligned container (spacing 8 after clamping),
the source places the third child at x = 108 because the zero-height
child is skipped before the cursor advance, whereas the claimed behavior
(zero width plus spacing still advances the cursor) would place it at
x = 116. -/
theorem zero_height_cursor_counterexample :
    ((doLayout leftCtx [exampleCard, zeroCard, exampleCard]
      ⟨0, []⟩).children.map LayoutChildState.x) = [0, 7, 108] ∧
    ((doLayoutClaimed leftCtx [exampleCard, zeroCard, exampleCard]
      ⟨0, []⟩).children.map LayoutChildState.x) = [0, 7, 116] ∧
    (108 : ℚ) ≠ 116 := by
  refine ⟨?_, ?_, by norm_num⟩ <;>
    norm_num [doLayout, doLayoutLoop, doLayoutClaimed, doLayoutStep, doLayoutStepClaimed,
      computeSpacing, computeUw, computeX0, destroyTween, leftCtx, exampleCard, zeroCard,
      show (("left" : String) = "center") = False from by simp]

/-- C3 amended: a child with non-positive natural height is excluded from
the usedWidth accumulation and, in the placement walk, is forced visible
while everything else in the loop state is left unchanged: it keeps its
prior geometry and tween slot, produces no notifications or tweens, and
the cursor does not advance for it at all (the spacing contribution
claimed in C3 does not happen). -/
theorem zero_height_child_skipped (ctx : DoLayoutCtx) (spacing : ℚ) (st : LoopState)
    (c : LayoutChildState) (h : c.height ≤ 0) :
    doLayoutStep ctx spacing st c =
      { st with done := st.done ++ [{ c with visible := true }] } ∧
    ∀ (H : ℚ) (l1 l2 : List LayoutChildState),
      computeUw H (l1 ++ c :: l2) = computeUw H (l1 ++ l2) := by
  constructor
  · have hc : ({ c with visible := true } : LayoutChildState).height ≤ 0 := h
    simp only [doLayoutStep]
    rw [if_pos hc]
  · intro H l1 l2
    simp only [computeUw, List.foldl_append, List.foldl_cons]
    rw [if_pos h]

theorem zero_height_child_skipped_witness :
    zeroCard.height ≤ 0 ∧
    doLayoutStep leftCtx 8 { x := 0, nextId := 0, live := [], done := [], events := [] }
        zeroCard =
      { x := 0, nextId := 0, live := [], done := [{ zeroCard with visible := true }],
        events := [] } ∧
    computeUw 100 [exampleCard, zeroCard] = computeUw 100 [exampleCard] := by
  refine ⟨by norm_num [zeroCard], ?_, ?_⟩
  · exact (zero_height_child_skipped leftCtx 8
      { x := 0, nextId := 0, live := [], done := [], events := [] } zeroCard
      (by norm_num [zeroCard])).1
  · exact (zero_height_child_skipped leftCtx 8
      { x := 0, nextId := 0, live := [], done := [], events := [] } zeroCard
      (by norm_num [zeroCard])).2 100 [exampleCard] []

/-- C8: with exactly one child the computed spacing is exactly 0 whatever
the width, and with no children doLayout does no per-child work (children,
events, and tween system are returned untouched) and the spacing guard
keeps the (n - 1) division unreached, giving spacing 0. -/
theorem spacing_single_and_empty :
    (∀ (keldonMode : Bool) (W H : ℚ) (c : LayoutChildState), 0 ≤ computeUw H [c] →
      computeSpacing keldonMode W H [c] = 0) ∧
    (∀ (keldonMode : Bool) (W H : ℚ), computeSpacing keldonMode W H [] = 0) ∧
    (∀ (ctx : DoLayoutCtx) (sys : TweenSystem),
      (doLayout ctx [] sys).children = [] ∧ (doLayout ctx [] sys).events = [] ∧
      (doLayout ctx [] sys).sys = sys) := by
  refine ⟨?_, ?_, ?_⟩
  · intro keldonMode W H c h
    have h0 : ¬ ((1 : Nat) < 1) := by norm_num
    cases keldonMode
    · have hcap : ¬ ((0.04 : ℚ) * computeUw H [c] < 0) :=
        not_lt.mpr (mul_nonneg (by norm_num) h)
      simp only [computeSpacing, List.length_singleton]
      rw [if_neg h0, if_neg Bool.false_ne_true, if_neg hcap]
    · have hcap : ¬ ((0.025 : ℚ) * computeUw H [c] < 0) :=
        not_lt.mpr (mul_nonneg (by norm_num) h)
      simp only [computeSpacing, List.length_singleton]
      rw [if_neg h0, if_pos trivial, if_neg hcap]
  · intro keldonMode W H
    cases keldonMode <;> norm_num [computeSpacing, computeUw]
  · intro ctx sys
    exact ⟨rfl, rfl, rfl⟩

theorem spacing_single_and_empty_witness :
    computeSpacing false 7 100 [exampleCard] = 0 :=
  spacing_single_and_empty.1 false 7 100 exampleCard (by norm_num [computeUw, exampleCard])

/-- C9: constructing a CardLayout without a width or without a height is
an immediate error, and construction with both defined and no optional
entries succeeds with align "left", reverse false, rotation 0, and
empathy false. -/
theorem construct_requires_dimensions (config : ContainerConfig) :
    ((config.width = none ∨ config.height = none) →
      ∃ msg, CardLayout.construct config = Except.error msg) ∧
    (∀ w h : ℚ, config.width = some w → config.height = some h → config.align = none →
      config.reverse = none → config.rotation = none →
      CardLayout.construct config = Except.ok
        { align := "left", reverse := false, origRotation := 0, empathy := false,
          width := w, height := h }) := by
  constructor
  · rintro (hw | hh)
    · exact ⟨"A width was not defined for a CardLayout.",
        by simp [CardLayout.construct, hw]⟩
    · cases hcw : config.width with
      | none => exact ⟨"A width was not defined for a CardLayout.",
          by simp [CardLayout.construct, hcw]⟩
      | some w => exact ⟨"A height was not defined for a CardLayout.",
          by simp [CardLayout.construct, hcw, hh]⟩
  · intro w h hw hh ha hr hrot
    simp [CardLayout.construct, hw, hh, ha, hr, hrot]

theorem construct_requires_dimensions_witness :
    CardLayout.construct { width := some 3, height := some 4 } = Except.ok
      { align := "left", reverse := false, origRotation := 0, empathy := false,
        width := 3, height := 4 } :=
  (construct_requires_dimensions { width := some 3, height := some 4 }).2 3 4
    rfl rfl rfl rfl rfl

/-- C4: in an animated (non-instant) pass, a child with the pending-
misplay flag set has the flag cleared and gets a first-phase tween whose
local target offset by the container absolute position is exactly the
play-pile anchor absolute position resolved from the card suit, with
scale (anchorHeight * s) / H for s = H / naturalHeight, rotation 0, the
standard duration, and ease-out; its completion snaps the child rotation
to exactly 360 and only then schedules the second-phase layout tween. -/
theorem misplay_two_phase (ctx : DoLayoutCtx) (spacing : ℚ) (st : LoopState)
    (c : LayoutChildState) (hfast : ctx.flags.animateFast = false) (hpos : 0 < c.height)
    (hmis : c.doMisplayAnimation = true) :
    doLayoutStep ctx spacing st c =
      { x := st.x + (ctx.handHeight / c.height * c.width + spacing) *
          (if ctx.reverse then -1 else 1),
        nextId := st.nextId + 1,
        live := destroyTween st.live c.tween ++
          [⟨st.nextId, st.done.length, misplayTweenSpec ctx c.suitIndex (ctx.handHeight / c.height),
            OnFinish.misplayDone (layoutTweenSpec ctx
              (st.x - (if ctx.reverse then ctx.handHeight / c.height * c.width else 0))
              (ctx.handHeight / c.height))⟩],
        done := st.done ++
          [{ c with visible := true, tween := some st.nextId, doMisplayAnimation := false }],
        events := st.events ++ [Event.startedTweening st.done.length,
          Event.setRaiseAndShadowOffset st.done.length] } ∧
    (misplayTweenSpec ctx c.suitIndex (ctx.handHeight / c.height)).x + ctx.containerAbsPos.x =
      (ctx.playStackAbsPos c.suitIndex).x ∧
    (misplayTweenSpec ctx c.suitIndex (ctx.handHeight / c.height)).y + ctx.containerAbsPos.y =
      (ctx.playStackAbsPos c.suitIndex).y ∧
    (misplayTweenSpec ctx c.suitIndex (ctx.handHeight / c.height)).scale =
      ctx.playStackHeight c.suitIndex * (ctx.handHeight / c.height) / ctx.handHeight ∧
    (misplayTweenSpec ctx c.suitIndex (ctx.handHeight / c.height)).rotation = 0 ∧
    (misplayTweenSpec ctx c.suitIndex (ctx.handHeight / c.height)).duration =
      CARD_ANIMATION_LENGTH ∧
    (misplayTweenSpec ctx c.suitIndex (ctx.handHeight / c.height)).easing = Easing.easeOut ∧
    ∀ (c2 : LayoutChildState) (j : Nat) (second : TweenSpec),
      runOnFinish (OnFinish.misplayDone second) c2 j =
        ({ c2 with rotation := 360 }, [], [(second, OnFinish.layoutDone)]) := by
  refine ⟨?_, by simp [misplayTweenSpec], by simp [misplayTweenSpec], rfl, rfl, rfl, rfl,
    fun c2 j second => rfl⟩
  simp only [doLayoutStep, hfast, hmis]
  rw [if_neg (not_le.mpr hpos), if_neg Bool.false_ne_true, if_pos trivial]

theorem misplay_two_phase_witness :
    animCtx.flags.animateFast = false ∧ (0 : ℚ) < misCard.height ∧
    misCard.doMisplayAnimation = true ∧
    (misplayTweenSpec animCtx misCard.suitIndex (animCtx.handHeight / misCard.height)).x +
      animCtx.containerAbsPos.x = (animCtx.playStackAbsPos misCard.suitIndex).x :=
  ⟨rfl, by norm_num [misCard], rfl,
    (misplay_two_phase animCtx 0 { x := 0, nextId := 0, live := [], done := [], events := [] }
      misCard rfl (by norm_num [misCard]) rfl).2.1⟩

/-- C10: when the instant-mode flag is set, the synchronous snap path of
doLayout never emits a startedTweening or finishedTweening notification;
finishedTweening is never emitted during any doLayout pass itself (it is
issued only by the layout tween completion callback), and on the animated
path every positive-height child gets a startedTweening notification at
scheduling time. -/
theorem fast_path_no_tween_notifications :
    (∀ (ctx : DoLayoutCtx) (children : List LayoutChildState) (sys : TweenSystem) (i : Nat),
      ctx.flags.animateFast = true →
      Event.startedTweening i ∉ (doLayout ctx children sys).events ∧
      Event.finishedTweening i ∉ (doLayout ctx children sys).events) ∧
    (∀ (ctx : DoLayoutCtx) (children : List LayoutChildState) (sys : TweenSystem) (i : Nat),
      Event.finishedTweening i ∉ (doLayout ctx children sys).events) ∧
    (∀ (ctx : DoLayoutCtx) (children : List LayoutChildState) (sys : TweenSystem),
      ctx.flags.animateFast = false → (∀ c ∈ children, 0 < c.height) →
      ∀ i < children.length, Event.startedTweening i ∈ (doLayout ctx children sys).events) ∧
    (∀ (c : LayoutChildState) (i : Nat),
      (runOnFinish OnFinish.layoutDone c i).2.1 =
        [Event.finishedTweening i, Event.checkSetDraggable i]) := by
  refine ⟨?_, ?_, ?_, fun c i => rfl⟩
  · intro ctx children sys i hfast
    constructor
    · intro hmem
      rcases foldl_events_shape_fast ctx _ hfast children _ _ hmem with h | ⟨j, h | h⟩
      · cases h
      · cases h
      · cases h
    · intro hmem
      rcases foldl_events_shape_fast ctx _ hfast children _ _ hmem with h | ⟨j, h | h⟩
      · cases h
      · cases h
      · cases h
  · intro ctx children sys i hmem
    rcases foldl_events_shape ctx _ children _ _ hmem with h | ⟨j, h | h | h⟩
    · cases h
    · cases h
    · cases h
    · cases h
  · intro ctx children sys hfast hpos i hi
    have h := foldl_started_mem ctx
      (computeSpacing ctx.flags.keldonMode ctx.handWidth ctx.handHeight children) hfast
      children
      { x := computeX0 ctx.align ctx.reverse ctx.handWidth
          (computeUw ctx.handHeight children +
            computeSpacing ctx.flags.keldonMode ctx.handWidth ctx.handHeight children *
              ((children.length : ℚ) - 1)),
        nextId := sys.nextId, live := sys.live, done := [], events := [] }
      hpos i hi
    have h2 : Event.startedTweening i ∈ (doLayoutLoop ctx children sys).events := by
      simpa [doLayoutLoop] using h
    exact h2

theorem fast_path_no_tween_notifications_witness :
    exampleCtx.flags.animateFast = true ∧
    Event.startedTweening 0 ∉ (doLayout exampleCtx [exampleCard] ⟨0, []⟩).events :=
  ⟨rfl, (fast_path_no_tween_notifications.1 exampleCtx [exampleCard] ⟨0, []⟩ 0 rfl).1⟩

theorem doLayoutLoop_eq (ctx : DoLayoutCtx) (children : List LayoutChildState)
    (sys : TweenSystem) :
    doLayoutLoop ctx children sys = List.foldl
      (doLayoutStep ctx (computeSpacing ctx.flags.keldonMode ctx.handWidth ctx.handHeight children))
      { x := computeX0 ctx.align ctx.reverse ctx.handWidth
          (computeUw ctx.handHeight children +
            computeSpacing ctx.flags.keldonMode ctx.handWidth ctx.handHeight children *
              ((children.length : ℚ) - 1)),
        nextId := sys.nextId, live := sys.live, done := [], events := [] } children := rfl

/-- C2: in an animated pass, the per-child processing destroys and clears
the tween referenced by the child slot before the one new tween for that
child is created (and the destroyed handle is gone from the in-flight
list), and running two consecutive doLayout passes over positive-height
children starting from an idle tween system leaves exactly one in-flight
tween per child, with every tween of the first pass destroyed. -/
theorem doLayout_tween_unique (ctx : DoLayoutCtx) (children : List LayoutChildState) (n0 : Nat)
    (hfast : ctx.flags.animateFast = false)
    (hpos : ∀ c ∈ children, 0 < c.height)
    (hslots : ∀ c ∈ children, c.tween = none) :
    (∀ (spacing : ℚ) (st : LoopState) (c : LayoutChildState), 0 < c.height →
      ∃ (sp : TweenSpec) (ofin : OnFinish),
        (doLayoutStep ctx spacing st c).live =
          destroyTween st.live c.tween ++ [⟨st.nextId, st.done.length, sp, ofin⟩] ∧
        ∀ id0, c.tween = some id0 → ∀ t ∈ destroyTween st.live c.tween, t.id ≠ id0) ∧
    (∀ i < children.length,
      (liveFor i (doLayout ctx (doLayout ctx children ⟨n0, []⟩).children
        (doLayout ctx children ⟨n0, []⟩).sys).sys.live).length = 1) ∧
    (∀ t ∈ (doLayout ctx children ⟨n0, []⟩).sys.live,
      ∀ u ∈ (doLayout ctx (doLayout ctx children ⟨n0, []⟩).children
        (doLayout ctx children ⟨n0, []⟩).sys).sys.live, t.id ≠ u.id) := by
  have hD1 : (doLayout ctx children ⟨n0, []⟩).sys.live =
      (doLayoutLoop ctx children ⟨n0, []⟩).live := rfl
  have hC1 : (doLayout ctx children ⟨n0, []⟩).children =
      (doLayoutLoop ctx children ⟨n0, []⟩).done := rfl
  have hS1 : (doLayout ctx children ⟨n0, []⟩).sys =
      ⟨(doLayoutLoop ctx children ⟨n0, []⟩).nextId,
        (doLayoutLoop ctx children ⟨n0, []⟩).live⟩ := rfl
  have hD2 : ∀ (cs : List LayoutChildState) (sys : TweenSystem),
      (doLayout ctx cs sys).sys.live = (doLayoutLoop ctx cs sys).live := fun _ _ => rfl
  -- pass 1 invariant
  have hinv1 : LayoutInv n0 [] (doLayoutLoop ctx children ⟨n0, []⟩) := by
    rw [doLayoutLoop_eq]
    exact LayoutInv.foldl ctx _ hfast children _ n0 hpos
      (LayoutInv.initial n0 _ children
        (fun c hc id0 h0 => by rw [hslots c hc] at h0; cases h0))
  have hlen1 : (doLayoutLoop ctx children ⟨n0, []⟩).done.length = children.length := by
    rw [doLayoutLoop_eq, foldl_done_length]
    simp
  have hpos1 : ∀ c ∈ (doLayoutLoop ctx children ⟨n0, []⟩).done, 0 < c.height := by
    rw [doLayoutLoop_eq]
    exact foldl_heights ctx _ children _ hpos (fun c hc => absurd hc (List.not_mem_nil c))
  -- pass 2 invariant
  have hinv2 : LayoutInv (doLayoutLoop ctx children ⟨n0, []⟩).nextId []
      (doLayoutLoop ctx (doLayoutLoop ctx children ⟨n0, []⟩).done
        ⟨(doLayoutLoop ctx children ⟨n0, []⟩).nextId,
          (doLayoutLoop ctx children ⟨n0, []⟩).live⟩) := by
    rw [doLayoutLoop_eq]
    exact LayoutInv.foldl ctx _ hfast _ _ _ hpos1 (LayoutInv.restart hinv1 _)
  have hlen2 : (doLayoutLoop ctx (doLayoutLoop ctx children ⟨n0, []⟩).done
      ⟨(doLayoutLoop ctx children ⟨n0, []⟩).nextId,
        (doLayoutLoop ctx children ⟨n0, []⟩).live⟩).done.length = children.length := by
    rw [doLayoutLoop_eq, foldl_done_length]
    simpa using hlen1
  refine ⟨?_, ?_, ?_⟩
  · intro spacing st c h
    obtain ⟨sp, ofin, cN, hstep, hcN, hh⟩ := doLayoutStep_animated ctx spacing st c hfast h
    refine ⟨sp, ofin, ?_, ?_⟩
    · rw [hstep]
    · intro id0 h0 t ht
      rw [h0] at ht
      exact destroyTween_ne ht
  · intro i hi
    rw [hC1, hS1, hD2]
    exact (hinv2.doneOne i (by rw [hlen2]; exact hi)).1
  · intro t ht u hu
    rw [hD1] at ht
    rw [hC1, hS1, hD2] at hu
    have htlt : t.id < (doLayoutLoop ctx children ⟨n0, []⟩).nextId := hinv1.fresh t ht
    have hub : u.childIdx < (doLayoutLoop ctx (doLayoutLoop ctx children ⟨n0, []⟩).done
        ⟨(doLayoutLoop ctx children ⟨n0, []⟩).nextId,
          (doLayoutLoop ctx children ⟨n0, []⟩).live⟩).done.length := by
      by_contra hge
      have h2 := hinv2.liveRem u hu (by omega)
      have h3 := h2.1
      simp at h3
    have hun : (doLayoutLoop ctx children ⟨n0, []⟩).nextId ≤ u.id :=
      (hinv2.doneOne u.childIdx hub).2 u (mem_liveFor.mpr ⟨hu, rfl⟩)
    omega

theorem doLayout_tween_unique_witness :
    animCtx.flags.animateFast = false ∧
    (liveFor 0 (doLayout animCtx (doLayout animCtx [exampleCard] ⟨0, []⟩).children
      (doLayout animCtx [exampleCard] ⟨0, []⟩).sys).sys.live).length = 1 :=
  ⟨rfl, (doLayout_tween_unique animCtx [exampleCard] 0 rfl
    (fun c hc => by rw [List.mem_singleton] at hc; rw [hc]; norm_num [exampleCard])
    (fun c hc => by rw [List.mem_singleton] at hc; rw [hc]; rfl)).2.1 0 (by norm_num)⟩
